import Mathlib

/-!
Verification of the options-page logic of an Electron ad-blocker settings UI
(`src/main/pages/js/options.js`).

The development shallowly embeds the stateful components of that file:

* the filter metadata cache `loadedFiltersInfo` (`initLoadedFilters`,
  `isEnabled`, `updateEnabled`) together with `setLastUpdatedTimeText`;
* the checkbox widget decorator `CheckboxUtils.toggleCheckbox`;
* the tab router `TopMenu.toggleTab`;
* the whitelist / user-rules editors' omit-render counters
  (`saveWhiteListDomains` / `updateWhiteListDomains`,
  `saveUserRules` / `updateUserFilterRules`);
* the reset-stats popup auto-hide timer (`PageController._onStatsReset`).

JavaScript records are embedded as structures whose optional fields are
`Option`-typed (`none` models an absent property, i.e. `undefined`); object
references shared between the `filters` array and the `filtersById` index are
embedded as indices into the `filters` list, so that an in-place mutation of a
record is visible through both access paths, exactly as in the source.
-/

namespace Options

/-! ## Data model (options.js, section 3 of the source: filter records) -/
/-- A filter record as the renderer receives it from the backend.  Fields the
cache logic never inspects are omitted; fields it inspects only for truthiness
or value are `Option`-typed because the corresponding JS properties may be
absent.  `enabled` is `Option Bool` (`none` = property absent / `undefined`). -/
structure Filter where
  filterId : Nat
  groupId : Nat
  enabled : Option Bool
  lastUpdateTime : Option Nat
  timeUpdated : Option Nat
  deriving DecidableEq

/-- A category (group) record; the cache merely stores these. -/
structure Category where
  groupId : Nat
  deriving DecidableEq

/-- The `loadedFiltersInfo` state (options.js lines 369-407).  The JS
`filtersById` object maps a filter id to a *reference* to a record that also
sits in the `filters` array; we embed a reference as the index of that record
in `filters`. -/
structure Cache where
  filters : List Filter
  categories : List Category
  filtersById : Nat → Option Nat
  lastUpdateTime : Nat

/-- The initial field values of `loadedFiltersInfo` (lines 370-373). -/
def initialCache : Cache :=
  { filters := [], categories := [], filtersById := fun _ => none, lastUpdateTime := 0 }

/-- The loop body of `initLoadedFilters` building `filtersById`
(`filtersById[filter.filterId] = filter` over the list, later writes win);
`i` is the index of the head of the remaining list in the full array. -/
def buildIndexAux : List Filter → Nat → (Nat → Option Nat) → (Nat → Option Nat)
  | [], _, m => m
  | f :: rest, i, m =>
      buildIndexAux rest (i + 1) (fun k => if k = f.filterId then some i else m k)

/-- The loop body of `initLoadedFilters` updating the running maximum:
`if (filter.lastUpdateTime && filter.lastUpdateTime > lastUpdateTime)
   lastUpdateTime = filter.lastUpdateTime;` (lines 384-386). -/
def lastUpdateStep (lut : Nat) (f : Filter) : Nat :=
  match f.lastUpdateTime with
  | none => lut
  | some t => if t ≠ 0 ∧ t > lut then t else lut

/-- `loadedFiltersInfo.initLoadedFilters(filters, categories)`
(lines 375-391): replaces the lists, rebuilds the id index from scratch and
recomputes `lastUpdateTime` from the `lastUpdateTime` property of the new
filter records. -/
def initLoadedFilters (c : Cache) (filters : List Filter) (categories : List Category) : Cache :=
  { filters := filters,
    categories := categories,
    filtersById := buildIndexAux filters 0 (fun _ => none),
    lastUpdateTime := filters.foldl lastUpdateStep 0 }

/-- `loadedFiltersInfo.isEnabled(filterId)` (lines 393-396):
`const info = this.filtersById[filterId]; return info && info.enabled;`.
The result is the JS value of that expression: `none` models the falsy
`undefined` (unknown id, or record without an `enabled` property). -/
def isEnabled (c : Cache) (filterId : Nat) : Option Bool :=
  match c.filtersById filterId with
  | none => none
  | some idx =>
      match c.filters[idx]? with
      | none => none
      | some info => info.enabled

/-- In-place mutation `info.enabled = enabled` of the record stored at index
`idx` of the filters array. -/
def setEnabledAt : List Filter → Nat → Option Bool → List Filter
  | [], _, _ => []
  | f :: rest, 0, b => { f with enabled := b } :: rest
  | f :: rest, Nat.succ i, b => f :: setEnabledAt rest i b

/-- `loadedFiltersInfo.updateEnabled(filter, enabled)` (lines 398-406): if the
id is indexed, mutate that record's `enabled` flag in place; otherwise push
`filter` onto the array and index it.  Note that on the push path the code
does not write the `enabled` argument into the new record. -/
def updateEnabled (c : Cache) (filter : Filter) (enabled : Option Bool) : Cache :=
  match c.filtersById filter.filterId with
  | some idx => { c with filters := setEnabledAt c.filters idx enabled }
  | none =>
      { c with
        filters := c.filters ++ [filter],
        filtersById := fun k => if k = filter.filterId then some c.filters.length else c.filtersById k }

/-- The cache-mutating part of `setLastUpdatedTimeText(lastUpdateTime)`
(lines 832-835): `if (lastUpdateTime && lastUpdateTime > loadedFiltersInfo.lastUpdateTime)
loadedFiltersInfo.lastUpdateTime = lastUpdateTime;`.  The rest of the function
only formats the stored value into a DOM text node. -/
def setLastUpdatedTimeText (c : Cache) (lastUpdateTime : Option Nat) : Cache :=
  match lastUpdateTime with
  | none => c
  | some t => if t ≠ 0 ∧ t > c.lastUpdateTime then { c with lastUpdateTime := t } else c

/-! ## The consistency invariant relating `filters` and `filtersById` -/
/-- Index `idx` holds the last record of `fs` whose `filterId` is `id`. -/
def LastOccAt (fs : List Filter) (id idx : Nat) : Prop :=
  (∃ f, fs[idx]? = some f ∧ f.filterId = id) ∧
  ∀ j f', idx < j → fs[j]? = some f' → f'.filterId ≠ id

/-- `filtersById` is consistent with `filters`: an id is indexed exactly when
some record in the list carries it, and an indexed id points at the
last-written record carrying it. -/
def Consistent (c : Cache) : Prop :=
  (∀ id : Nat, (∃ f ∈ c.filters, f.filterId = id) ↔ (c.filtersById id).isSome) ∧
  (∀ id idx : Nat, c.filtersById id = some idx → LastOccAt c.filters id idx)

/-- Index of the last record with the given id, computed recursively. -/
def lastOcc (id : Nat) : List Filter → Option Nat
  | [] => none
  | f :: rest =>
      match lastOcc id rest with
      | some j => some (j + 1)
      | none => if f.filterId = id then some 0 else none

/-! ## Checkbox widget adapter (`CheckboxUtils.toggleCheckbox`, lines 60-100)
A checkbox element is modelled by the parts of its DOM neighbourhood that
`toggleCheckbox` touches: the `toggleCheckbox` marker attribute, how many
`toggler` sibling `div`s have been inserted next to it, how many click
listeners sit on those togglers, how many change listeners sit on the
checkbox itself, and its display/checked state. -/
structure CheckboxEl where
  toggleCheckboxAttr : Bool
  togglerSiblings : Nat
  clickListeners : Nat
  changeListeners : Nat
  checked : Bool
  displayNone : Bool
  deriving DecidableEq

/-- The per-element body of `toggleCheckbox`: return immediately when the
marker attribute is present (lines 64-67); otherwise insert a toggler sibling,
attach the two listeners, hide the native checkbox and set the marker
(lines 69-98). -/
def decorate (cb : CheckboxEl) : CheckboxEl :=
  if cb.toggleCheckboxAttr then cb
  else
    { cb with
      togglerSiblings := cb.togglerSiblings + 1,
      clickListeners := cb.clickListeners + 1,
      changeListeners := cb.changeListeners + 1,
      displayNone := true,
      toggleCheckboxAttr := true }

/-- `CheckboxUtils.toggleCheckbox(elements)`: apply `decorate` to every
element of the collection. -/
def toggleCheckbox (elements : List CheckboxEl) : List CheckboxEl :=
  elements.map decorate

/-! ## Whitelist / user-rules editors (lines 218-357)
Both `WhiteListFilter` and `UserFilter` keep a private
`omitRenderEventsCount`.  The editor block state is the counter (JS number,
modelled as `Int` so that "never negative" is meaningful), the number of times
the load function has been invoked (the "reload" observable; its body is a
stub in the source, but the call is what the claims are about), and the
editor's read-only flag. -/
structure EditorBlock where
  omitRenderEventsCount : Int
  loads : Nat
  readOnly : Bool
  deriving DecidableEq

/-- State at construction: `let omitRenderEventsCount = 0;`. -/
def initEditorBlock : EditorBlock :=
  { omitRenderEventsCount := 0, loads := 0, readOnly := false }

namespace WhiteListFilter

/-- `saveWhiteListDomains` (lines 242-258): sets `omitRenderEventsCount = 1`
and makes the editor read-only (the send-message part is stubbed out). -/
def saveWhiteListDomains (st : EditorBlock) : EditorBlock :=
  { st with omitRenderEventsCount := 1, readOnly := true }

/-- `updateWhiteListDomains` (lines 260-267): if the counter is positive,
decrement it and return; otherwise invoke `loadWhiteListDomains`. -/
def updateWhiteListDomains (st : EditorBlock) : EditorBlock :=
  if st.omitRenderEventsCount > 0 then
    { st with omitRenderEventsCount := st.omitRenderEventsCount - 1 }
  else
    { st with loads := st.loads + 1 }

end WhiteListFilter

namespace UserFilter

/-- `saveUserRules` (lines 321-337): sets `omitRenderEventsCount = 1` and
makes the editor read-only. -/
def saveUserRules (st : EditorBlock) : EditorBlock :=
  { st with omitRenderEventsCount := 1, readOnly := true }

/-- `updateUserFilterRules` (lines 339-346): if the counter is positive,
decrement it and return; otherwise invoke `loadUserRules`. -/
def updateUserFilterRules (st : EditorBlock) : EditorBlock :=
  if st.omitRenderEventsCount > 0 then
    { st with omitRenderEventsCount := st.omitRenderEventsCount - 1 }
  else
    { st with loads := st.loads + 1 }

end UserFilter

/-- The externally triggerable operations on an editor block: the user clicks
apply-changes (save), or a backend push event arrives (update). -/
inductive EditorEv where
  | save
  | update
  deriving DecidableEq

def stepWhiteList (st : EditorBlock) : EditorEv → EditorBlock
  | EditorEv.save => WhiteListFilter.saveWhiteListDomains st
  | EditorEv.update => WhiteListFilter.updateWhiteListDomains st

def stepUserFilter (st : EditorBlock) : EditorEv → EditorBlock
  | EditorEv.save => UserFilter.saveUserRules st
  | EditorEv.update => UserFilter.updateUserFilterRules st

def runWhiteList (evs : List EditorEv) (st : EditorBlock) : EditorBlock :=
  evs.foldl stepWhiteList st

def runUserFilter (evs : List EditorEv) (st : EditorBlock) : EditorBlock :=
  evs.foldl stepUserFilter st

/-! ## Reset-stats popup auto-hide timer (`PageController._onStatsReset`,
lines 1370-1378)
The event loop's timer table is embedded explicitly: `setTimeout` allocates a
fresh timer id with a deadline, `clearTimeout` removes a pending id.  The
controller state holds the popup visibility and `closePopupTimeoutId`. -/
structure StatsState where
  popupVisible : Bool
  closePopupTimeoutId : Option Nat
  pending : List (Nat × Nat)
  nextTimerId : Nat
  deriving DecidableEq

/-- Controller state before the first reset: no popup, no stored timeout id,
no pending timer. -/
def initialStats : StatsState :=
  { popupVisible := false, closePopupTimeoutId := none, pending := [], nextTimerId := 0 }

/-- `clearTimeout(id)`: drop the pending timer with this id (a no-op when the
id is no longer pending, as for an already-fired timer). -/
def clearTimeoutOp (st : StatsState) (id : Nat) : StatsState :=
  { st with pending := st.pending.filter (fun t => t.1 ≠ id) }

/-- `setTimeout(fn, 4000)` called at time `now`: allocate a fresh id with
deadline `now + 4000` and return it. -/
def setTimeoutOp (st : StatsState) (now : Nat) : StatsState × Nat :=
  ({ st with
      pending := st.pending ++ [(st.nextTimerId, now + 4000)],
      nextTimerId := st.nextTimerId + 1 },
   st.nextTimerId)

/-- `PageController._onStatsReset` at time `now`: show the popup, cancel the
previously stored hide timer if any, schedule a fresh hide in 4000 ms and
remember its id. -/
def _onStatsReset (st : StatsState) (now : Nat) : StatsState :=
  let st1 := { st with popupVisible := true }
  let st2 :=
    match st1.closePopupTimeoutId with
    | some id => clearTimeoutOp st1 id
    | none => st1
  let (st3, id) := setTimeoutOp st2 now
  { st3 with closePopupTimeoutId := some id }

/-- Expiry of the pending timer `id`: the event loop runs the scheduled
callback `this.resetStatsPopup.style.display = 'none'` and retires the timer.
Firing an id that is not pending does nothing. -/
def fireTimer (st : StatsState) (id : Nat) : StatsState :=
  if st.pending.any (fun t => t.1 = id) then
    { st with
      popupVisible := false,
      pending := st.pending.filter (fun t => t.1 ≠ id) }
  else st

/-- Events that touch the popup timer: a user-triggered stats reset at some
time, or the expiry of a timer id. -/
inductive StatsEv where
  | reset (now : Nat)
  | fire (id : Nat)
  deriving DecidableEq

def stepStats (st : StatsState) : StatsEv → StatsState
  | StatsEv.reset now => _onStatsReset st now
  | StatsEv.fire id => fireTimer st id

def runStats (evs : List StatsEv) (st : StatsState) : StatsState :=
  evs.foldl stepStats st

/-- Timer discipline invariant: at most one hide timer is pending, and any
pending timer is the one whose id is stored in `closePopupTimeoutId`. -/
def StatsInv (st : StatsState) : Prop :=
  st.pending.length ≤ 1 ∧ ∀ t ∈ st.pending, st.closePopupTimeoutId = some t.1

/-! ## Tab router (`TopMenu`, lines 132-209)
The DOM parts `toggleTab` touches are embedded as a list of content panels
(elements found by `document.querySelector(tabId)`) and a list of nav buttons
(elements found by `[data-tab=...]` selectors), in document order;
`querySelector` returns the first match, `querySelectorAll` all matches.
A thrown `TypeError` (property access on a `null` query result) is embedded
as `Except.error`.  The `onHashUpdatedCallback` invocation is observed as a
counter. -/
def GENERAL_SETTINGS : String := "#general-settings"

def ANTIBANNER : String := "#antibanner"

def WHITELIST : String := "#whitelist"

def displayNoneStr : String := "none"

def displayBlockStr : String := "block"

def typeErrorStr : String := "TypeError"

/-- Character-list test that `pat` occurs at the start of the other list;
models `s.indexOf(pat) === 0` for strings. -/
def beginsList : List Char → List Char → Bool
  | [], _ => true
  | _ :: _, [] => false
  | a :: as, b :: bs => a == b && beginsList as bs

/-- `s.indexOf(pat) === 0` for JS strings. -/
def strBegins (s pat : String) : Bool :=
  beginsList pat.data s.data

/-- A settings content panel: an element with an id (matched by the `tabId`
selector) and an inline `display` style. -/
structure Panel where
  id : String
  display : String
  deriving DecidableEq

/-- A navigation button carrying a `data-tab` attribute and possibly the
`active` class. -/
structure NavButton where
  dataTab : String
  active : Bool
  deriving DecidableEq

/-- The document state and module state (`prevTabId`, `onHashUpdatedCallback`)
that `TopMenu.toggleTab` reads and writes. -/
structure TMState where
  hash : String
  panels : List Panel
  navButtons : List NavButton
  prevTabId : Option String
  callbackSet : Bool
  callbackCalls : Nat
  deriving DecidableEq

/-- `document.querySelector(sel)` over the panels (first match). -/
def querySelectorPanel (s : TMState) (sel : String) : Option Panel :=
  s.panels.find? (fun p => p.id == sel)

/-- `document.querySelector('[data-tab="tab"]')` (first match). -/
def querySelectorNav (s : TMState) (tab : String) : Option NavButton :=
  s.navButtons.find? (fun b => b.dataTab == tab)

/-- Mutation of the first element satisfying the predicate (the node that
`querySelector` returned). -/
def updateFirst {α : Type} (p : α → Bool) (f : α → α) : List α → List α
  | [] => []
  | x :: xs => if p x then f x :: xs else x :: updateFirst p f xs

/-- `node.style.display = disp` on the first panel matching `sel`. -/
def setPanelDisplay (s : TMState) (sel disp : String) : TMState :=
  { s with panels := updateFirst (fun p => p.id == sel) (fun p => { p with display := disp }) s.panels }

/-- `classList.add/remove('active')` on the first nav button with the given
`data-tab`. -/
def setNavActive (s : TMState) (tab : String) (a : Bool) : TMState :=
  { s with navButtons := updateFirst (fun b => b.dataTab == tab) (fun b => { b with active := a }) s.navButtons }

/-- `querySelectorAll('[data-tab="#antibanner"]').forEach(... add/remove
'active')`. -/
def setAntibannerNavsActive (s : TMState) (a : Bool) : TMState :=
  { s with
    navButtons := s.navButtons.map
      (fun b => if b.dataTab == ANTIBANNER then { b with active := a } else b) }

/-- Lines 160-168 of `toggleTab`, for `prevTabId = prev`: deactivate the
previous tab's nav highlight, then hide the previous panel
(`document.querySelector(prevTabId).style.display = 'none'`); throws when a
required element is missing.  The common panel-hide step is written once per
branch so that each branch is a plain conditional over the state reached in
it. -/
def hidePrevSome (s : TMState) (prev : String) : Except String TMState :=
  if strBegins prev ANTIBANNER then
    match querySelectorPanel (setAntibannerNavsActive s false) prev with
    | none => Except.error typeErrorStr
    | some _ => Except.ok (setPanelDisplay (setAntibannerNavsActive s false) prev displayNoneStr)
  else
    match querySelectorNav s prev with
    | none => Except.error typeErrorStr
    | some _ =>
        match querySelectorPanel (setNavActive s prev false) prev with
        | none => Except.error typeErrorStr
        | some _ => Except.ok (setPanelDisplay (setNavActive s prev false) prev displayNoneStr)

/-- Lines 159-169 of `toggleTab`: `if (prevTabId) { ... }`. -/
def hidePrevTab (s : TMState) : Except String TMState :=
  match s.prevTabId with
  | none => Except.ok s
  | some prev => hidePrevSome s prev

/-- Lines 171-177 of `toggleTab`: activate the nav highlight of the new tab. -/
def activateTabNav (s : TMState) (tabId : String) : Except String TMState :=
  if strBegins tabId ANTIBANNER then Except.ok (setAntibannerNavsActive s true)
  else
    match querySelectorNav s tabId with
    | none => Except.error typeErrorStr
    | some _ => Except.ok (setNavActive s tabId true)

/-- Lines 179-187 of `toggleTab`: `tab.style.display = 'block'`, the
whitelist-callback firing, and `prevTabId = tabId`.  The intermediate JS
variables `s3`/`s4` of the transition are written out instead of let-bound. -/
def toggleTabFinish (s2 : TMState) (tabId : String) (tab : Option Panel) : Except String TMState :=
  match tab with
  | none => Except.error typeErrorStr
  | some t =>
      if tabId == WHITELIST && (setPanelDisplay s2 t.id displayBlockStr).callbackSet then
        Except.ok
          { setPanelDisplay s2 t.id displayBlockStr with
            callbackCalls := (setPanelDisplay s2 t.id displayBlockStr).callbackCalls + 1,
            prevTabId := some tabId }
      else
        Except.ok { setPanelDisplay s2 t.id displayBlockStr with prevTabId := some tabId }

/-- Lines 159-188 of `toggleTab`, after the tab id and panel have been
resolved: hide the previous tab, highlight the new one, then finish the
transition. -/
def toggleTabCore (s : TMState) (tabId : String) (tab : Option Panel) : Except String TMState :=
  match hidePrevTab s with
  | Except.error e => Except.error e
  | Except.ok s1 =>
      match activateTabNav s1 tabId with
      | Except.error e => Except.error e
      | Except.ok s2 => toggleTabFinish s2 tabId tab

/-- `let tabId = document.location.hash || GENERAL_SETTINGS;` (line 144):
the empty hash string is falsy. -/
def hashTabId (s : TMState) : String :=
  if s.hash == ("" : String) then GENERAL_SETTINGS else s.hash

/-- The tab id `toggleTab` settles on: the location hash (default
`#general-settings`), falling back to `#general-settings` when no panel
matches (lines 152-155). -/
def resolvedTabId (s : TMState) : String :=
  if (querySelectorPanel s (hashTabId s)).isNone then GENERAL_SETTINGS else hashTabId s

/-- `TopMenu.toggleTab` (lines 142-188): resolve the hash to a tab id and
panel (deferring when an `#antibanner` panel is not rendered yet, falling
back to the default panel otherwise), then run the transition. -/
def toggleTab (s : TMState) : Except String TMState :=
  if strBegins (hashTabId s) ANTIBANNER && (querySelectorPanel s (hashTabId s)).isNone then
    Except.ok s
  else
    toggleTabCore s (resolvedTabId s)
      (if (querySelectorPanel s (hashTabId s)).isNone then querySelectorPanel s GENERAL_SETTINGS
       else querySelectorPanel s (hashTabId s))

/-! ## Concrete records used by the witness and counterexample theorems -/

/-- A filter record whose `enabled` property disagrees with the flag that
`updateEnabled` is called with. -/
def newFilterRecord : Filter :=
  { filterId := 2, groupId := 10, enabled := some false,
    lastUpdateTime := none, timeUpdated := none }

/-- A filter record with `enabled` present. -/
def wlFilter : Filter :=
  { filterId := 7, groupId := 1, enabled := some true,
    lastUpdateTime := none, timeUpdated := none }

/-- The record of the specification's example scenario
`{filterId:1, groupId:10, enabled:true, timeUpdated:100}`: the timestamp sits
in `timeUpdated`, no `lastUpdateTime` property. -/
def specExampleFilter : Filter :=
  { filterId := 1, groupId := 10, enabled := some true,
    lastUpdateTime := none, timeUpdated := some 100 }

/-- The category of the specification's example scenario. -/
def specExampleCategory : Category :=
  { groupId := 10 }

/-- A filter record carrying `lastUpdateTime = 100`. -/
def filterT100 : Filter :=
  { filterId := 1, groupId := 10, enabled := some true,
    lastUpdateTime := some 100, timeUpdated := none }

/-- A consistent one-filter cache. -/
def oneFilterCache : Cache :=
  initLoadedFilters initialCache [wlFilter] []

/-- An undecorated checkbox element. -/
def freshCheckbox : CheckboxEl :=
  { toggleCheckboxAttr := false, togglerSiblings := 0, clickListeners := 0,
    changeListeners := 0, checked := false, displayNone := false }

/-- A document whose hash names the not-yet-rendered category-5 panel. -/
def deferState : TMState :=
  { hash := "#antibanner5", panels := [], navButtons := [], prevTabId := none,
    callbackSet := true, callbackCalls := 0 }

/-- A document on the general-settings tab with the whitelist panel rendered
and the hash switched to `#whitelist`. -/
def wlState : TMState :=
  { hash := WHITELIST,
    panels := [{ id := GENERAL_SETTINGS, display := displayBlockStr },
               { id := WHITELIST, display := displayNoneStr }],
    navButtons := [{ dataTab := GENERAL_SETTINGS, active := true },
                   { dataTab := WHITELIST, active := false }],
    prevTabId := some GENERAL_SETTINGS,
    callbackSet := true,
    callbackCalls := 0 }

theorem buildIndexAux_eq (fs : List Filter) (i : Nat) (m : Nat → Option Nat) (id : Nat) :
    buildIndexAux fs i m id =
      (match lastOcc id fs with
       | some j => some (i + j)
       | none => m id) := by
  induction fs generalizing i m with
  | nil => rfl
  | cons f rest ih =>
      show buildIndexAux rest (i + 1) _ id = _
      rw [ih]
      cases h : lastOcc id rest with
      | some j =>
          simp only [lastOcc, h]
          congr 1
          omega
      | none =>
          simp only [lastOcc, h]
          by_cases hid : f.filterId = id
          · simp [hid]
          · have : ¬ id = f.filterId := fun hh => hid hh.symm
            simp [hid, this]

theorem lastOcc_none_iff (id : Nat) (fs : List Filter) :
    lastOcc id fs = none ↔ ∀ f ∈ fs, f.filterId ≠ id := by
  induction fs with
  | nil => simp [lastOcc]
  | cons f rest ih =>
      cases h : lastOcc id rest with
      | some j =>
          simp only [lastOcc, h]
          constructor
          · intro hc; exact absurd hc (by simp)
          · intro hall
            have : lastOcc id rest = none := ih.2 (fun g hg => hall g (List.mem_cons_of_mem _ hg))
            rw [this] at h; cases h
      | none =>
          simp only [lastOcc, h]
          constructor
          · intro hc
            by_cases hid : f.filterId = id
            · simp [hid] at hc
            · intro g hg
              rcases List.mem_cons.1 hg with rfl | hg'
              · exact hid
              · exact (ih.1 h) g hg'
          · intro hall
            have : f.filterId ≠ id := hall f (List.mem_cons_self _ _)
            simp [this]

theorem lastOcc_some_lastOccAt (id : Nat) (fs : List Filter) (j : Nat)
    (h : lastOcc id fs = some j) : LastOccAt fs id j := by
  induction fs generalizing j with
  | nil => cases h
  | cons f rest ih =>
      cases hr : lastOcc id rest with
      | some j' =>
          simp only [lastOcc, hr] at h
          cases h
          rcases ih j' hr with ⟨⟨g, hg, hgid⟩, hlast⟩
          refine ⟨⟨g, by simpa using hg, hgid⟩, ?_⟩
          intro k f' hk hget
          match k, hk with
          | Nat.succ k', hk =>
              have : rest[k']? = some f' := by simpa using hget
              exact hlast k' f' (by omega) this
      | none =>
          simp only [lastOcc, hr] at h
          by_cases hid : f.filterId = id
          · simp only [hid, if_pos rfl] at h
            cases h
            refine ⟨⟨f, by simp, hid⟩, ?_⟩
            intro k f' hk hget
            match k, hk with
            | Nat.succ k', _ =>
                have hf' : rest[k']? = some f' := by simpa using hget
                exact (lastOcc_none_iff id rest).1 hr f' (List.getElem?_mem hf')
          · simp [hid] at h

theorem lastOcc_isSome_iff (id : Nat) (fs : List Filter) :
    (∃ f ∈ fs, f.filterId = id) ↔ (lastOcc id fs).isSome := by
  constructor
  · intro ⟨f, hf, hid⟩
    cases h : lastOcc id fs with
    | some j => simp
    | none => exact absurd hid ((lastOcc_none_iff id fs).1 h f hf)
  · intro h
    cases ho : lastOcc id fs with
    | none => rw [ho] at h; cases h
    | some j =>
        rcases (lastOcc_some_lastOccAt id fs j ho).1 with ⟨f, hget, hid⟩
        exact ⟨f, List.getElem?_mem hget, hid⟩

/-- `initLoadedFilters` establishes the consistency invariant. -/
theorem consistent_init (c : Cache) (fs : List Filter) (cats : List Category) :
    Consistent (initLoadedFilters c fs cats) := by
  constructor
  · intro id
    show (∃ f ∈ fs, f.filterId = id) ↔ (buildIndexAux fs 0 (fun _ => none) id).isSome
    rw [buildIndexAux_eq]
    cases h : lastOcc id fs with
    | some j => simpa [h] using (lastOcc_isSome_iff id fs)
    | none => simpa [h] using (lastOcc_isSome_iff id fs)
  · intro id idx h
    have h' : buildIndexAux fs 0 (fun _ => none) id = some idx := h
    rw [buildIndexAux_eq] at h'
    cases ho : lastOcc id fs with
    | none => rw [ho] at h'; cases h'
    | some j =>
        rw [ho] at h'
        have : idx = j := by
          have := h'
          simp at this
          omega
        subst this
        exact lastOcc_some_lastOccAt id fs idx ho

theorem setEnabledAt_length (l : List Filter) (i : Nat) (b : Option Bool) :
    (setEnabledAt l i b).length = l.length := by
  induction l generalizing i with
  | nil => rfl
  | cons f rest ih =>
      cases i with
      | zero => rfl
      | succ i' => simpa [setEnabledAt] using ih i'

theorem setEnabledAt_getElem_ne (l : List Filter) (i j : Nat) (b : Option Bool)
    (h : j ≠ i) : (setEnabledAt l i b)[j]? = l[j]? := by
  induction l generalizing i j with
  | nil => rfl
  | cons f rest ih =>
      cases i with
      | zero =>
          cases j with
          | zero => exact absurd rfl h
          | succ j' => simp [setEnabledAt]
      | succ i' =>
          cases j with
          | zero => simp [setEnabledAt]
          | succ j' =>
              have : j' ≠ i' := fun hh => h (by omega)
              simpa [setEnabledAt] using ih i' j' this

theorem setEnabledAt_getElem_self (l : List Filter) (i : Nat) (b : Option Bool) :
    (setEnabledAt l i b)[i]? = (l[i]?).map (fun g => { g with enabled := b }) := by
  induction l generalizing i with
  | nil => rfl
  | cons f rest ih =>
      cases i with
      | zero => simp [setEnabledAt]
      | succ i' => simpa [setEnabledAt] using ih i'

theorem setEnabledAt_filterId (l : List Filter) (i j : Nat) (b : Option Bool) (f' : Filter)
    (h : (setEnabledAt l i b)[j]? = some f') :
    ∃ g, l[j]? = some g ∧ f'.filterId = g.filterId := by
  by_cases hij : j = i
  · subst hij
    rw [setEnabledAt_getElem_self] at h
    cases hg : l[j]? with
    | none => rw [hg] at h; cases h
    | some g =>
        rw [hg] at h
        refine ⟨g, rfl, ?_⟩
        simp at h
        rw [← h]
  · rw [setEnabledAt_getElem_ne l i j b hij] at h
    exact ⟨f', h, rfl⟩

theorem setEnabledAt_exists_id (l : List Filter) (i : Nat) (b : Option Bool) (id : Nat) :
    (∃ f ∈ setEnabledAt l i b, f.filterId = id) ↔ (∃ g ∈ l, g.filterId = id) := by
  constructor
  · intro ⟨f, hf, hid⟩
    rcases List.mem_iff_getElem?.1 hf with ⟨j, hj⟩
    rcases setEnabledAt_filterId l i j b f hj with ⟨g, hg, hgid⟩
    exact ⟨g, List.getElem?_mem hg, by rw [← hgid, hid]⟩
  · intro ⟨g, hg, hid⟩
    rcases List.mem_iff_getElem?.1 hg with ⟨j, hj⟩
    by_cases hij : j = i
    · subst hij
      refine ⟨{ g with enabled := b }, ?_, hid⟩
      apply List.getElem?_mem (n := j)
      rw [setEnabledAt_getElem_self, hj]
      rfl
    · refine ⟨g, ?_, hid⟩
      apply List.getElem?_mem (n := j)
      rw [setEnabledAt_getElem_ne l i j b hij]
      exact hj

theorem updateEnabled_eq_indexed (c : Cache) (f : Filter) (b : Option Bool) (idx : Nat)
    (hidx : c.filtersById f.filterId = some idx) :
    updateEnabled c f b = { c with filters := setEnabledAt c.filters idx b } := by
  unfold updateEnabled
  rw [hidx]

theorem updateEnabled_eq_push (c : Cache) (f : Filter) (b : Option Bool)
    (hidx : c.filtersById f.filterId = none) :
    updateEnabled c f b =
      { c with
        filters := c.filters ++ [f],
        filtersById := fun k => if k = f.filterId then some c.filters.length else c.filtersById k } := by
  unfold updateEnabled
  rw [hidx]

/-- `updateEnabled` preserves the consistency invariant. -/
theorem consistent_updateEnabled (c : Cache) (f : Filter) (b : Option Bool)
    (hc : Consistent c) : Consistent (updateEnabled c f b) := by
  rcases hc with ⟨hmem, hlast⟩
  cases hidx : c.filtersById f.filterId with
  | some idx =>
      rw [updateEnabled_eq_indexed c f b idx hidx]
      constructor
      · intro id
        simpa using (setEnabledAt_exists_id c.filters idx b id).trans (hmem id)
      · intro id idx' h
        have h' : c.filtersById id = some idx' := h
        rcases hlast id idx' h' with ⟨⟨g, hg, hgid⟩, hafter⟩
        constructor
        · by_cases hii : idx' = idx
          · subst hii
            refine ⟨{ g with enabled := b }, ?_, hgid⟩
            show (setEnabledAt c.filters idx' b)[idx']? = _
            rw [setEnabledAt_getElem_self, hg]
            rfl
          · refine ⟨g, ?_, hgid⟩
            show (setEnabledAt c.filters idx b)[idx']? = _
            rw [setEnabledAt_getElem_ne c.filters idx idx' b hii]
            exact hg
        · intro j f' hj hget
          have hget' : (setEnabledAt c.filters idx b)[j]? = some f' := hget
          rcases setEnabledAt_filterId c.filters idx j b f' hget' with ⟨g', hg', hgid'⟩
          rw [hgid']
          exact hafter j g' hj hg'
  | none =>
      rw [updateEnabled_eq_push c f b hidx]
      constructor
      · intro id
        show (∃ g ∈ c.filters ++ [f], g.filterId = id) ↔
          (if id = f.filterId then some c.filters.length else c.filtersById id).isSome
        by_cases hid : id = f.filterId
        · rw [if_pos hid]
          simp only [Option.isSome_some, iff_true]
          exact ⟨f, by simp, hid.symm⟩
        · rw [if_neg hid]
          rw [← hmem id]
          constructor
          · intro ⟨g, hg, hgid⟩
            rcases List.mem_append.1 hg with hg' | hg'
            · exact ⟨g, hg', hgid⟩
            · have hgf : g = f := by simpa using hg'
              rw [hgf] at hgid
              exact absurd hgid.symm hid
          · intro ⟨g, hg, hgid⟩
            exact ⟨g, List.mem_append_left _ hg, hgid⟩
      · intro id idx h
        have h' : (if id = f.filterId then some c.filters.length else c.filtersById id) = some idx := h
        by_cases hid : id = f.filterId
        · rw [if_pos hid] at h'
          have hidx' : idx = c.filters.length := by
            have := h'
            simp at this
            omega
          subst hidx'
          constructor
          · exact ⟨f, List.getElem?_concat_length c.filters f, hid.symm⟩
          · intro j f' hj hget
            have hnone : (c.filters ++ [f])[j]? = none := by
              apply List.getElem?_eq_none
              simp
              omega
            have hsome : (c.filters ++ [f])[j]? = some f' := hget
            rw [hnone] at hsome
            cases hsome
        · rw [if_neg hid] at h'
          rcases hlast id idx h' with ⟨⟨g, hg, hgid⟩, hafter⟩
          have hlen : idx < c.filters.length := by
            rcases List.getElem?_eq_some.1 hg with ⟨hlt, _⟩
            exact hlt
          constructor
          · refine ⟨g, ?_, hgid⟩
            show (c.filters ++ [f])[idx]? = some g
            rw [List.getElem?_append_left hlen]
            exact hg
          · intro j f' hj hget
            have hget' : (c.filters ++ [f])[j]? = some f' := hget
            by_cases hjlen : j < c.filters.length
            · rw [List.getElem?_append_left hjlen] at hget'
              exact hafter j f' hj hget'
            · have hjlen2 : j < c.filters.length + 1 := by
                rcases List.getElem?_eq_some.1 hget' with ⟨hlt, _⟩
                simpa using hlt
              have hjeq : j = c.filters.length := by omega
              subst hjeq
              have hlast' : (c.filters ++ [f])[c.filters.length]? = some f :=
                List.getElem?_concat_length c.filters f
              rw [hlast'] at hget'
              cases hget'
              intro hh
              exact hid hh.symm

/-- The initial `loadedFiltersInfo` state is consistent. -/
theorem consistent_initial : Consistent initialCache := by
  constructor
  · intro id
    constructor
    · intro ⟨f, hf, _⟩; cases hf
    · intro h; cases h
  · intro id idx h; cases h

/-! ## Auxiliary characterizations of the cache operations -/
theorem lastUpdateStep_eq_max (lut : Nat) (f : Filter) :
    lastUpdateStep lut f = max lut (f.lastUpdateTime.getD 0) := by
  unfold lastUpdateStep
  cases f.lastUpdateTime with
  | none => simp
  | some t =>
      show (if t ≠ 0 ∧ t > lut then t else lut) = max lut ((some t).getD 0)
      rcases Decidable.em (t ≠ 0 ∧ t > lut) with h | h
      · rw [if_pos h, Option.getD_some, Nat.max_eq_right (Nat.le_of_lt h.2)]
      · rw [if_neg h, Option.getD_some]
        rcases Decidable.em (t = 0) with h0 | h0
        · rw [h0]
          simp
        · have hle : t ≤ lut := by
            by_contra hgt
            exact h ⟨h0, by omega⟩
          rw [Nat.max_eq_left hle]

theorem foldl_lastUpdateStep (fs : List Filter) (a : Nat) :
    fs.foldl lastUpdateStep a = (fs.map (fun f => f.lastUpdateTime.getD 0)).foldl max a := by
  induction fs generalizing a with
  | nil => rfl
  | cons f rest ih =>
      show List.foldl lastUpdateStep (lastUpdateStep a f) rest = _
      rw [ih, lastUpdateStep_eq_max]
      rfl

theorem updateEnabled_lastUpdateTime (c : Cache) (f : Filter) (b : Option Bool) :
    (updateEnabled c f b).lastUpdateTime = c.lastUpdateTime := by
  cases hidx : c.filtersById f.filterId with
  | some idx => rw [updateEnabled_eq_indexed c f b idx hidx]
  | none => rw [updateEnabled_eq_push c f b hidx]

theorem stepWhiteList_nonneg (st : EditorBlock) (ev : EditorEv)
    (h : 0 ≤ st.omitRenderEventsCount) : 0 ≤ (stepWhiteList st ev).omitRenderEventsCount := by
  cases ev with
  | save => simp [stepWhiteList, WhiteListFilter.saveWhiteListDomains]
  | update =>
      unfold stepWhiteList WhiteListFilter.updateWhiteListDomains
      by_cases hpos : st.omitRenderEventsCount > 0
      · rw [if_pos hpos]
        simp
        omega
      · rw [if_neg hpos]
        simpa using h

theorem stepUserFilter_nonneg (st : EditorBlock) (ev : EditorEv)
    (h : 0 ≤ st.omitRenderEventsCount) : 0 ≤ (stepUserFilter st ev).omitRenderEventsCount := by
  cases ev with
  | save => simp [stepUserFilter, UserFilter.saveUserRules]
  | update =>
      unfold stepUserFilter UserFilter.updateUserFilterRules
      by_cases hpos : st.omitRenderEventsCount > 0
      · rw [if_pos hpos]
        simp
        omega
      · rw [if_neg hpos]
        simpa using h

theorem runWhiteList_nonneg (evs : List EditorEv) (st : EditorBlock)
    (h : 0 ≤ st.omitRenderEventsCount) : 0 ≤ (runWhiteList evs st).omitRenderEventsCount := by
  induction evs generalizing st with
  | nil => exact h
  | cons ev rest ih => exact ih (stepWhiteList st ev) (stepWhiteList_nonneg st ev h)

theorem runUserFilter_nonneg (evs : List EditorEv) (st : EditorBlock)
    (h : 0 ≤ st.omitRenderEventsCount) : 0 ≤ (runUserFilter evs st).omitRenderEventsCount := by
  induction evs generalizing st with
  | nil => exact h
  | cons ev rest ih => exact ih (stepUserFilter st ev) (stepUserFilter_nonneg st ev h)

theorem statsInv_initial : StatsInv initialStats := by
  constructor
  · simp [initialStats]
  · intro t ht
    cases ht

theorem onStatsReset_eq_none (st : StatsState) (now : Nat)
    (hc : st.closePopupTimeoutId = none) :
    _onStatsReset st now =
      { popupVisible := true,
        closePopupTimeoutId := some st.nextTimerId,
        pending := st.pending ++ [(st.nextTimerId, now + 4000)],
        nextTimerId := st.nextTimerId + 1 } := by
  unfold _onStatsReset setTimeoutOp
  simp [hc]

theorem onStatsReset_eq_some (st : StatsState) (now : Nat) (id : Nat)
    (hc : st.closePopupTimeoutId = some id) :
    _onStatsReset st now =
      { popupVisible := true,
        closePopupTimeoutId := some st.nextTimerId,
        pending := st.pending.filter (fun t => t.1 ≠ id) ++ [(st.nextTimerId, now + 4000)],
        nextTimerId := st.nextTimerId + 1 } := by
  unfold _onStatsReset setTimeoutOp clearTimeoutOp
  simp [hc]

/-- Under the invariant, a reset leaves exactly the freshly scheduled hide
timer pending, with the full 4000 ms deadline from the trigger time. -/
theorem onStatsReset_pending (st : StatsState) (now : Nat) (h : StatsInv st) :
    (_onStatsReset st now).pending = [(st.nextTimerId, now + 4000)] ∧
    (_onStatsReset st now).closePopupTimeoutId = some st.nextTimerId := by
  rcases h with ⟨hlen, hid⟩
  cases hc : st.closePopupTimeoutId with
  | none =>
      rw [onStatsReset_eq_none st now hc]
      refine ⟨?_, rfl⟩
      have hp : st.pending = [] := by
        cases hp : st.pending with
        | nil => rfl
        | cons t rest =>
            have := hid t (by rw [hp]; exact List.mem_cons_self _ _)
            rw [hc] at this
            cases this
      simp [hp]
  | some id =>
      rw [onStatsReset_eq_some st now id hc]
      refine ⟨?_, rfl⟩
      have hp : st.pending.filter (fun t => t.1 ≠ id) = [] := by
        cases hp : st.pending with
        | nil => rfl
        | cons t rest =>
            have hrest : rest = [] := by
              apply List.eq_nil_of_length_eq_zero
              have hl := hlen
              rw [hp] at hl
              simp only [List.length_cons] at hl
              omega
            subst hrest
            have := hid t (by rw [hp]; exact List.mem_cons_self _ _)
            rw [hc] at this
            have ht1 : t.1 = id := by
              injection this with hh
              exact hh.symm
            simp [ht1]
      rw [hp]
      rfl

theorem statsInv_step (st : StatsState) (ev : StatsEv) (h : StatsInv st) :
    StatsInv (stepStats st ev) := by
  cases ev with
  | reset now =>
      rcases onStatsReset_pending st now h with ⟨hp, hc⟩
      constructor
      · show (_onStatsReset st now).pending.length ≤ 1
        rw [hp]
        simp
      · intro t ht
        show (_onStatsReset st now).closePopupTimeoutId = some t.1
        rw [hc]
        have : t = (st.nextTimerId, now + 4000) := by
          have := ht
          rw [show stepStats st (StatsEv.reset now) = _onStatsReset st now from rfl, hp] at this
          simpa using this
        rw [this]
  | fire id =>
      rcases h with ⟨hlen, hid⟩
      show StatsInv (fireTimer st id)
      unfold fireTimer
      split
      · constructor
        · show (st.pending.filter (fun t => t.1 ≠ id)).length ≤ 1
          calc (st.pending.filter (fun t => t.1 ≠ id)).length
              ≤ st.pending.length := List.length_filter_le _ _
            _ ≤ 1 := hlen
        · intro t ht
          exact hid t (List.mem_of_mem_filter ht)
      · exact ⟨hlen, hid⟩

theorem statsInv_run (evs : List StatsEv) (st : StatsState) (h : StatsInv st) :
    StatsInv (runStats evs st) := by
  induction evs generalizing st with
  | nil => exact h
  | cons ev rest ih => exact ih (stepStats st ev) (statsInv_step st ev h)

theorem find?_updateFirst_self {α : Type} (q : α → Bool) (g : α → α)
    (hg : ∀ x, q (g x) = q x) (l : List α) :
    (updateFirst q g l).find? q = (l.find? q).map g := by
  induction l with
  | nil => rfl
  | cons x xs ih =>
      by_cases hx : q x
      · rw [show updateFirst q g (x :: xs) = g x :: xs from by simp [updateFirst, hx]]
        rw [List.find?_cons_of_pos _ (by rw [hg]; exact hx)]
        rw [List.find?_cons_of_pos _ hx]
        rfl
      · rw [show updateFirst q g (x :: xs) = x :: updateFirst q g xs from by
          simp [updateFirst, hx]]
        rw [List.find?_cons_of_neg _ (by simpa using hx)]
        rw [List.find?_cons_of_neg _ (by simpa using hx)]
        exact ih

theorem find?_updateFirst_of_ne {α : Type} (q q' : α → Bool) (g : α → α)
    (h : ∀ x, q x = true → q' x = false ∧ q' (g x) = false) (l : List α) :
    (updateFirst q g l).find? q' = l.find? q' := by
  induction l with
  | nil => rfl
  | cons x xs ih =>
      by_cases hx : q x
      · rw [show updateFirst q g (x :: xs) = g x :: xs from by simp [updateFirst, hx]]
        rw [List.find?_cons_of_neg _ (by simp [(h x hx).2])]
        rw [List.find?_cons_of_neg _ (by simp [(h x hx).1])]
      · rw [show updateFirst q g (x :: xs) = x :: updateFirst q g xs from by
          simp [updateFirst, hx]]
        by_cases hx' : q' x
        · rw [List.find?_cons_of_pos _ hx', List.find?_cons_of_pos _ hx']
        · rw [List.find?_cons_of_neg _ (by simpa using hx'),
            List.find?_cons_of_neg _ (by simpa using hx')]
          exact ih

theorem find?_isSome_updateFirst {α : Type} (q q' : α → Bool) (g : α → α)
    (hg : ∀ x, q' (g x) = q' x) (l : List α) :
    ((updateFirst q g l).find? q').isSome = (l.find? q').isSome := by
  induction l with
  | nil => rfl
  | cons x xs ih =>
      by_cases hx : q x
      · rw [show updateFirst q g (x :: xs) = g x :: xs from by simp [updateFirst, hx]]
        by_cases hx' : q' x
        · rw [List.find?_cons_of_pos _ (by rw [hg]; exact hx'), List.find?_cons_of_pos _ hx']
          rfl
        · rw [List.find?_cons_of_neg _ (by simp [hg, hx']),
            List.find?_cons_of_neg _ (by simpa using hx')]
      · rw [show updateFirst q g (x :: xs) = x :: updateFirst q g xs from by
          simp [updateFirst, hx]]
        by_cases hx' : q' x
        · rw [List.find?_cons_of_pos _ hx', List.find?_cons_of_pos _ hx']
        · rw [List.find?_cons_of_neg _ (by simpa using hx'),
            List.find?_cons_of_neg _ (by simpa using hx')]
          exact ih

theorem setPanelDisplay_fields (s : TMState) (sel disp : String) :
    (setPanelDisplay s sel disp).hash = s.hash ∧
    (setPanelDisplay s sel disp).navButtons = s.navButtons ∧
    (setPanelDisplay s sel disp).prevTabId = s.prevTabId ∧
    (setPanelDisplay s sel disp).callbackSet = s.callbackSet ∧
    (setPanelDisplay s sel disp).callbackCalls = s.callbackCalls :=
  ⟨rfl, rfl, rfl, rfl, rfl⟩

theorem setNavActive_fields (s : TMState) (tab : String) (a : Bool) :
    (setNavActive s tab a).hash = s.hash ∧
    (setNavActive s tab a).panels = s.panels ∧
    (setNavActive s tab a).prevTabId = s.prevTabId ∧
    (setNavActive s tab a).callbackSet = s.callbackSet ∧
    (setNavActive s tab a).callbackCalls = s.callbackCalls :=
  ⟨rfl, rfl, rfl, rfl, rfl⟩

theorem setAntibannerNavsActive_fields (s : TMState) (a : Bool) :
    (setAntibannerNavsActive s a).hash = s.hash ∧
    (setAntibannerNavsActive s a).panels = s.panels ∧
    (setAntibannerNavsActive s a).prevTabId = s.prevTabId ∧
    (setAntibannerNavsActive s a).callbackSet = s.callbackSet ∧
    (setAntibannerNavsActive s a).callbackCalls = s.callbackCalls :=
  ⟨rfl, rfl, rfl, rfl, rfl⟩

theorem hidePrevTab_eq_none (s : TMState) (hp : s.prevTabId = none) :
    hidePrevTab s = Except.ok s := by
  unfold hidePrevTab
  simp only [hp]

theorem hidePrevTab_eq_some (s : TMState) (p : String) (hp : s.prevTabId = some p) :
    hidePrevTab s = hidePrevSome s p := by
  unfold hidePrevTab
  simp only [hp]

theorem hidePrevSome_ok (s s1 : TMState) (p : String)
    (h : hidePrevSome s p = Except.ok s1) :
    s1.panels =
      updateFirst (fun x => x.id == p) (fun x => { x with display := displayNoneStr }) s.panels ∧
    (s.panels.find? (fun x => x.id == p)).isSome ∧
    s1.hash = s.hash ∧ s1.callbackSet = s.callbackSet ∧ s1.callbackCalls = s.callbackCalls := by
  unfold hidePrevSome at h
  by_cases hb : strBegins p ANTIBANNER = true
  · rw [if_pos hb] at h
    cases hq : querySelectorPanel (setAntibannerNavsActive s false) p with
    | none => rw [hq] at h; cases h
    | some q =>
        rw [hq] at h
        injection h with h
        subst h
        refine ⟨rfl, ?_, rfl, rfl, rfl⟩
        have : s.panels.find? (fun x => x.id == p) = some q := hq
        rw [this]
        rfl
  · rw [if_neg hb] at h
    cases hn : querySelectorNav s p with
    | none => rw [hn] at h; cases h
    | some b =>
        rw [hn] at h
        cases hq : querySelectorPanel (setNavActive s p false) p with
        | none => rw [hq] at h; cases h
        | some q =>
            rw [hq] at h
            injection h with h
            subst h
            refine ⟨rfl, ?_, rfl, rfl, rfl⟩
            have : s.panels.find? (fun x => x.id == p) = some q := hq
            rw [this]
            rfl

theorem hidePrevTab_fields (s s1 : TMState) (h : hidePrevTab s = Except.ok s1) :
    s1.hash = s.hash ∧ s1.callbackSet = s.callbackSet ∧ s1.callbackCalls = s.callbackCalls := by
  cases hp : s.prevTabId with
  | none =>
      rw [hidePrevTab_eq_none s hp] at h
      injection h with h
      subst h
      exact ⟨rfl, rfl, rfl⟩
  | some p =>
      rw [hidePrevTab_eq_some s p hp] at h
      rcases hidePrevSome_ok s s1 p h with ⟨-, -, h3, h4, h5⟩
      exact ⟨h3, h4, h5⟩

theorem activateTabNav_fields (s s2 : TMState) (tabId : String)
    (h : activateTabNav s tabId = Except.ok s2) :
    s2.panels = s.panels ∧ s2.hash = s.hash ∧ s2.prevTabId = s.prevTabId ∧
    s2.callbackSet = s.callbackSet ∧ s2.callbackCalls = s.callbackCalls := by
  unfold activateTabNav at h
  by_cases hb : strBegins tabId ANTIBANNER = true
  · rw [if_pos hb] at h
    injection h with h
    subst h
    exact ⟨rfl, rfl, rfl, rfl, rfl⟩
  · rw [if_neg hb] at h
    cases hn : querySelectorNav s tabId with
    | none => rw [hn] at h; cases h
    | some b =>
        rw [hn] at h
        injection h with h
        subst h
        exact ⟨rfl, rfl, rfl, rfl, rfl⟩

theorem toggleTabCore_eq_hide_error (s : TMState) (tabId : String) (tab : Option Panel)
    (e : String) (hh : hidePrevTab s = Except.error e) :
    toggleTabCore s tabId tab = Except.error e := by
  unfold toggleTabCore
  simp only [hh]

theorem toggleTabCore_eq_nav_error (s s1 : TMState) (tabId : String) (tab : Option Panel)
    (e : String) (hh : hidePrevTab s = Except.ok s1)
    (ha : activateTabNav s1 tabId = Except.error e) :
    toggleTabCore s tabId tab = Except.error e := by
  unfold toggleTabCore
  simp only [hh, ha]

theorem toggleTabCore_eq_finish (s s1 s2 : TMState) (tabId : String) (tab : Option Panel)
    (hh : hidePrevTab s = Except.ok s1) (ha : activateTabNav s1 tabId = Except.ok s2) :
    toggleTabCore s tabId tab = toggleTabFinish s2 tabId tab := by
  unfold toggleTabCore
  simp only [hh, ha]

theorem toggleTabFinish_callbackCalls (s2 s' : TMState) (tabId : String) (tab : Option Panel)
    (hcb : s2.callbackSet = true) (h : toggleTabFinish s2 tabId tab = Except.ok s') :
    s'.callbackCalls = s2.callbackCalls + (if tabId = WHITELIST then 1 else 0) := by
  cases tab with
  | none => cases h
  | some t =>
      simp only [toggleTabFinish] at h
      have hset : (setPanelDisplay s2 t.id displayBlockStr).callbackSet = true := hcb
      by_cases hwl : tabId = WHITELIST
      · have hcond : (tabId == WHITELIST &&
            (setPanelDisplay s2 t.id displayBlockStr).callbackSet) = true := by
          rw [hset, hwl]
          simp
        rw [if_pos hcond] at h
        injection h with h
        subst h
        rw [if_pos hwl]
        rfl
      · have hcond : ¬((tabId == WHITELIST &&
            (setPanelDisplay s2 t.id displayBlockStr).callbackSet) = true) := by
          have hne : (tabId == WHITELIST) = false := by
            cases hbe : tabId == WHITELIST
            · rfl
            · exact absurd (by simpa using hbe) hwl
          rw [hne]
          simp
        rw [if_neg hcond] at h
        injection h with h
        subst h
        rw [if_neg hwl]
        rfl

theorem toggleTabCore_callbackCalls (s s' : TMState) (tabId : String) (tab : Option Panel)
    (hcb : s.callbackSet = true) (h : toggleTabCore s tabId tab = Except.ok s') :
    s'.callbackCalls = s.callbackCalls + (if tabId = WHITELIST then 1 else 0) := by
  cases hh : hidePrevTab s with
  | error e => rw [toggleTabCore_eq_hide_error s tabId tab e hh] at h; cases h
  | ok s1 =>
      rcases hidePrevTab_fields s s1 hh with ⟨-, hcb1, hcc1⟩
      cases ha : activateTabNav s1 tabId with
      | error e => rw [toggleTabCore_eq_nav_error s s1 tabId tab e hh ha] at h; cases h
      | ok s2 =>
          rcases activateTabNav_fields s1 s2 tabId ha with ⟨-, -, -, hcb2, hcc2⟩
          rw [toggleTabCore_eq_finish s s1 s2 tabId tab hh ha] at h
          rw [toggleTabFinish_callbackCalls s2 s' tabId tab (by rw [hcb2, hcb1, hcb]) h]
          rw [hcc2, hcc1]

theorem toggleTabFinish_panels (s2 s' : TMState) (tabId : String) (t : Panel)
    (h : toggleTabFinish s2 tabId (some t) = Except.ok s') :
    s'.panels =
      updateFirst (fun x => x.id == t.id) (fun x => { x with display := displayBlockStr })
        s2.panels := by
  simp only [toggleTabFinish] at h
  by_cases hcond : (tabId == WHITELIST && (setPanelDisplay s2 t.id displayBlockStr).callbackSet) = true
  · rw [if_pos hcond] at h
    injection h with h
    subst h
    rfl
  · rw [if_neg hcond] at h
    injection h with h
    subst h
    rfl

theorem toggleTab_eq_defer (s : TMState)
    (hg : (strBegins (hashTabId s) ANTIBANNER && (querySelectorPanel s (hashTabId s)).isNone) = true) :
    toggleTab s = Except.ok s := by
  unfold toggleTab
  rw [if_pos hg]

theorem toggleTab_eq_core (s : TMState)
    (hg : ¬((strBegins (hashTabId s) ANTIBANNER && (querySelectorPanel s (hashTabId s)).isNone) = true)) :
    toggleTab s =
      toggleTabCore s (resolvedTabId s)
        (if (querySelectorPanel s (hashTabId s)).isNone then querySelectorPanel s GENERAL_SETTINGS
         else querySelectorPanel s (hashTabId s)) := by
  unfold toggleTab
  rw [if_neg hg]

theorem toggleTab_ok_callbackCalls (s s' : TMState) (hcb : s.callbackSet = true)
    (hrun : toggleTab s = Except.ok s') :
    s'.callbackCalls = s.callbackCalls + (if resolvedTabId s = WHITELIST then 1 else 0) := by
  by_cases hg : (strBegins (hashTabId s) ANTIBANNER && (querySelectorPanel s (hashTabId s)).isNone) = true
  · rw [toggleTab_eq_defer s hg] at hrun
    injection hrun with hrun
    subst hrun
    have hparts : strBegins (hashTabId s) ANTIBANNER = true ∧
        (querySelectorPanel s (hashTabId s)).isNone = true := by simpa using hg
    have hnone : (querySelectorPanel s (hashTabId s)).isNone = true := hparts.2
    have hres : resolvedTabId s = GENERAL_SETTINGS := by
      unfold resolvedTabId
      simp [hnone]
    rw [hres, if_neg (by decide : ¬(GENERAL_SETTINGS = WHITELIST))]
    rfl
  · rw [toggleTab_eq_core s hg] at hrun
    exact toggleTabCore_callbackCalls s s' (resolvedTabId s) _ hcb hrun

theorem toggleTab_whitelist_scenario (s s' : TMState) (p : String)
    (hhash : s.hash = WHITELIST)
    (hprev : s.prevTabId = some p)
    (hpw : p ≠ WHITELIST)
    (hw : (querySelectorPanel s WHITELIST).isSome = true)
    (hrun : toggleTab s = Except.ok s') :
    (∃ w, querySelectorPanel s' WHITELIST = some w ∧ w.display = displayBlockStr) ∧
    (∃ q, querySelectorPanel s' p = some q ∧ q.display = displayNoneStr) := by
  have hht : hashTabId s = WHITELIST := by
    unfold hashTabId
    rw [hhash]
    have hbe : (WHITELIST == ("" : String)) = false := by decide
    simp [hbe]
  obtain ⟨w0, hw0⟩ := Option.isSome_iff_exists.mp hw
  have hq : querySelectorPanel s (hashTabId s) = some w0 := by rw [hht]; exact hw0
  have hnone : (querySelectorPanel s (hashTabId s)).isNone = false := by rw [hq]; rfl
  have hgne : ¬((strBegins (hashTabId s) ANTIBANNER &&
      (querySelectorPanel s (hashTabId s)).isNone) = true) := by
    rw [hnone]
    simp
  have hres : resolvedTabId s = WHITELIST := by
    unfold resolvedTabId
    simp only [hnone, Bool.false_eq_true, if_false]
    exact hht
  have htabarg :
      (if (querySelectorPanel s (hashTabId s)).isNone then querySelectorPanel s GENERAL_SETTINGS
       else querySelectorPanel s (hashTabId s)) = some w0 := by
    simp only [hnone, Bool.false_eq_true, if_false]
    exact hq
  rw [toggleTab_eq_core s hgne, hres, htabarg] at hrun
  have hw0id : w0.id = WHITELIST := by
    have := List.find?_some hw0
    simpa using this
  cases hh : hidePrevTab s with
  | error e => rw [toggleTabCore_eq_hide_error s WHITELIST (some w0) e hh] at hrun; cases hrun
  | ok s1 =>
      cases ha : activateTabNav s1 WHITELIST with
      | error e =>
          rw [toggleTabCore_eq_nav_error s s1 WHITELIST (some w0) e hh ha] at hrun
          cases hrun
      | ok s2 =>
          rw [toggleTabCore_eq_finish s s1 s2 WHITELIST (some w0) hh ha] at hrun
          rw [hidePrevTab_eq_some s p hprev] at hh
          rcases hidePrevSome_ok s s1 p hh with ⟨hpanels1, hfind1, -, -, -⟩
          rcases activateTabNav_fields s1 s2 WHITELIST ha with ⟨hpanels2, -, -, -, -⟩
          have hpanels' := toggleTabFinish_panels s2 s' WHITELIST w0 hrun
          rw [hw0id, hpanels2, hpanels1] at hpanels'
          have hdisj1 : ∀ x : Panel, (x.id == p) = true →
              (x.id == WHITELIST) = false ∧
              (({ x with display := displayNoneStr } : Panel).id == WHITELIST) = false := by
            intro x hx
            have hxid : x.id = p := by simpa using hx
            constructor
            · rw [hxid]
              exact beq_eq_false_iff_ne.mpr hpw
            · show (x.id == WHITELIST) = false
              rw [hxid]
              exact beq_eq_false_iff_ne.mpr hpw
          have hdisj2 : ∀ x : Panel, (x.id == WHITELIST) = true →
              (x.id == p) = false ∧
              (({ x with display := displayBlockStr } : Panel).id == p) = false := by
            intro x hx
            have hxid : x.id = WHITELIST := by simpa using hx
            constructor
            · rw [hxid]
              exact beq_eq_false_iff_ne.mpr (fun hh2 => hpw hh2.symm)
            · show (x.id == p) = false
              rw [hxid]
              exact beq_eq_false_iff_ne.mpr (fun hh2 => hpw hh2.symm)
          constructor
          · show ∃ w, s'.panels.find? (fun x => x.id == WHITELIST) = some w ∧
              w.display = displayBlockStr
            rw [hpanels']
            rw [find?_updateFirst_self (fun x : Panel => x.id == WHITELIST)
              (fun x : Panel => { x with display := displayBlockStr }) (fun x => rfl)
              (updateFirst (fun x : Panel => x.id == p)
                (fun x : Panel => { x with display := displayNoneStr }) s.panels)]
            rw [find?_updateFirst_of_ne (fun x : Panel => x.id == p)
              (fun x : Panel => x.id == WHITELIST)
              (fun x : Panel => { x with display := displayNoneStr }) hdisj1 s.panels]
            have hfw : s.panels.find? (fun x : Panel => x.id == WHITELIST) = some w0 := hw0
            rw [hfw]
            exact ⟨{ w0 with display := displayBlockStr }, rfl, rfl⟩
          · show ∃ q, s'.panels.find? (fun x => x.id == p) = some q ∧
              q.display = displayNoneStr
            rw [hpanels']
            rw [find?_updateFirst_of_ne (fun x : Panel => x.id == WHITELIST)
              (fun x : Panel => x.id == p)
              (fun x : Panel => { x with display := displayBlockStr }) hdisj2
              (updateFirst (fun x : Panel => x.id == p)
                (fun x : Panel => { x with display := displayNoneStr }) s.panels)]
            rw [find?_updateFirst_self (fun x : Panel => x.id == p)
              (fun x : Panel => { x with display := displayNoneStr }) (fun x => rfl) s.panels]
            obtain ⟨q0, hq0⟩ := Option.isSome_iff_exists.mp hfind1
            rw [hq0]
            exact ⟨{ q0 with display := displayNoneStr }, rfl, rfl⟩

theorem isEnabled_eq_none (c : Cache) (fid : Nat) (h : c.filtersById fid = none) :
    isEnabled c fid = none := by
  unfold isEnabled
  simp only [h]

theorem isEnabled_eq_some (c : Cache) (fid idx : Nat) (h : c.filtersById fid = some idx) :
    isEnabled c fid =
      (match c.filters[idx]? with
       | none => none
       | some info => info.enabled) := by
  unfold isEnabled
  simp only [h]

/-! ## Claim theorems -/

/-- Claim C1, counterexample: on a cache that does not contain filter 2,
`updateEnabled(f, true)` with `f.enabled = false` appends `f` unchanged, so
`isEnabled(f.filterId)` afterwards is `false`, not `true` — the claim fails
for newly discovered filters whose own `enabled` property disagrees with the
argument. -/
theorem updateEnabled_new_filter_counterexample :
    ¬(isEnabled (updateEnabled initialCache newFilterRecord (some true)) newFilterRecord.filterId =
      some true) := by
  decide

/-- Claim C1 (amended): after `updateEnabled(f, b)`, `isEnabled(f.filterId)`
returns `b` when `f.filterId` was already indexed (in-place mutation), and the
appended record's own `enabled` property when it was not — so the claim as
stated holds exactly when the record's `enabled` property agrees with the
argument, as at the code's only call site. -/
theorem updateEnabled_isEnabled (c : Cache) (f : Filter) (b : Bool) (hc : Consistent c) :
    isEnabled (updateEnabled c f (some b)) f.filterId =
      (if (c.filtersById f.filterId).isSome then some b else f.enabled) := by
  cases hidx : c.filtersById f.filterId with
  | some idx =>
      have hby : (updateEnabled c f (some b)).filtersById f.filterId = some idx := by
        rw [updateEnabled_eq_indexed c f (some b) idx hidx]
        exact hidx
      rw [isEnabled_eq_some _ _ idx hby]
      have hfl : (updateEnabled c f (some b)).filters = setEnabledAt c.filters idx (some b) := by
        rw [updateEnabled_eq_indexed c f (some b) idx hidx]
      rw [hfl]
      rcases (hc.2 f.filterId idx hidx).1 with ⟨g, hg, -⟩
      rw [setEnabledAt_getElem_self, hg]
      rw [if_pos (by rfl)]
      rfl
  | none =>
      have hby : (updateEnabled c f (some b)).filtersById f.filterId = some c.filters.length := by
        rw [updateEnabled_eq_push c f (some b) hidx]
        simp
      rw [isEnabled_eq_some _ _ _ hby]
      have hfl : (updateEnabled c f (some b)).filters = c.filters ++ [f] := by
        rw [updateEnabled_eq_push c f (some b) hidx]
      rw [hfl, List.getElem?_concat_length]
      rw [if_neg (by simp)]

/-- Claim C1 witness: the amended characterization evaluated on the empty
cache and a concrete record. -/
theorem updateEnabled_isEnabled_witness :
    isEnabled (updateEnabled initialCache wlFilter (some false)) wlFilter.filterId =
      (if (initialCache.filtersById wlFilter.filterId).isSome then some false
       else wlFilter.enabled) :=
  updateEnabled_isEnabled initialCache wlFilter false consistent_initial

/-- Claim C2, counterexample: on the specification's own example input the
cache's `lastUpdateTime` is not 100, because `initLoadedFilters` reads the
`lastUpdateTime` property of each record and the example record only carries
`timeUpdated`. -/
theorem initLoadedFilters_timeUpdated_counterexample :
    ¬((initLoadedFilters initialCache [specExampleFilter] [specExampleCategory]).lastUpdateTime =
      100) := by
  decide

/-- Claim C2 (amended): after `initLoadedFilters(filters, categories)` the
cache's `lastUpdateTime` is the maximum over the `lastUpdateTime` properties
of the given records (missing treated as 0, and a zero timestamp cannot win);
`timeUpdated` is not consulted, so on the specification's example input
`isEnabled(1)` is `true` but `lastUpdateTime` is 0, not 100. -/
theorem initLoadedFilters_lastUpdateTime (c : Cache) (fs : List Filter) (cats : List Category) :
    (initLoadedFilters c fs cats).lastUpdateTime =
      (fs.map (fun f => f.lastUpdateTime.getD 0)).foldl max 0 ∧
    isEnabled (initLoadedFilters initialCache [specExampleFilter] [specExampleCategory]) 1 =
      some true ∧
    (initLoadedFilters initialCache [specExampleFilter] [specExampleCategory]).lastUpdateTime =
      0 := by
  refine ⟨?_, by decide, by decide⟩
  show fs.foldl lastUpdateStep 0 = _
  exact foldl_lastUpdateStep fs 0

/-- Claim C3, counterexample: a second `initLoadedFilters` call with an empty
filter list drops `lastUpdateTime` from 100 to 0 — the field is recomputed
from scratch by every `initLoadedFilters` call and can decrease. -/
theorem lastUpdateTime_decrease_counterexample :
    (initLoadedFilters (initLoadedFilters initialCache [filterT100] []) [] []).lastUpdateTime <
      (initLoadedFilters initialCache [filterT100] []).lastUpdateTime := by
  decide

/-- Claim C3 (amended): `lastUpdateTime` never decreases under
`setLastUpdatedTimeText` (which only raises it) and is unchanged by
`updateEnabled`; an `initLoadedFilters` call, however, replaces it with the
maximum over the new list and can therefore decrease it. -/
theorem lastUpdateTime_monotone (c : Cache) (t : Option Nat) (f : Filter) (b : Option Bool) :
    c.lastUpdateTime ≤ (setLastUpdatedTimeText c t).lastUpdateTime ∧
    (updateEnabled c f b).lastUpdateTime = c.lastUpdateTime := by
  constructor
  · unfold setLastUpdatedTimeText
    cases t with
    | none => exact le_refl _
    | some t' =>
        show c.lastUpdateTime ≤
          (if t' ≠ 0 ∧ t' > c.lastUpdateTime then ({ c with lastUpdateTime := t' } : Cache)
           else c).lastUpdateTime
        rcases Decidable.em (t' ≠ 0 ∧ t' > c.lastUpdateTime) with h | h
        · rw [if_pos h]
          exact Nat.le_of_lt h.2
        · rw [if_neg h]
  · exact updateEnabled_lastUpdateTime c f b

/-- Claim C4: `isEnabled` is total — on an unindexed id it returns the falsy
`undefined` (embedded as `none`) rather than throwing, and on an indexed id
it returns the indexed record's `enabled` property. -/
theorem isEnabled_safe (c : Cache) (fid : Nat) (hc : Consistent c) :
    (c.filtersById fid = none → isEnabled c fid = none) ∧
    (∀ idx, c.filtersById fid = some idx →
      ∃ f, c.filters[idx]? = some f ∧ f.filterId = fid ∧ isEnabled c fid = f.enabled) := by
  constructor
  · intro h
    exact isEnabled_eq_none c fid h
  · intro idx h
    rcases (hc.2 fid idx h).1 with ⟨f, hf, hfid⟩
    refine ⟨f, hf, hfid, ?_⟩
    rw [isEnabled_eq_some c fid idx h, hf]

/-- Claim C4 witness: the safety property evaluated on a concrete consistent
one-filter cache. -/
theorem isEnabled_safe_witness :
    (oneFilterCache.filtersById 7 = none → isEnabled oneFilterCache 7 = none) ∧
    (∀ idx, oneFilterCache.filtersById 7 = some idx →
      ∃ f, oneFilterCache.filters[idx]? = some f ∧ f.filterId = 7 ∧
        isEnabled oneFilterCache 7 = f.enabled) :=
  isEnabled_safe oneFilterCache 7 (consistent_init initialCache [wlFilter] [])

/-- Claim C5: `toggleCheckbox` is idempotent — decorating an already-decorated
checkbox is a no-op (the marker attribute guards re-entry), and decorating a
fresh checkbox leaves exactly one toggler sibling and one click listener. -/
theorem toggleCheckbox_idempotent (elements : List CheckboxEl) (cb : CheckboxEl)
    (hattr : cb.toggleCheckboxAttr = false) (hsib : cb.togglerSiblings = 0)
    (hclick : cb.clickListeners = 0) :
    toggleCheckbox (toggleCheckbox elements) = toggleCheckbox elements ∧
    (decorate cb).togglerSiblings = 1 ∧
    (decorate cb).clickListeners = 1 ∧
    decorate (decorate cb) = decorate cb := by
  have hdec : ∀ x : CheckboxEl, decorate (decorate x) = decorate x := by
    intro x
    by_cases hx : x.toggleCheckboxAttr = true
    · have h1 : decorate x = x := by
        unfold decorate
        rw [if_pos hx]
      rw [h1, h1]
    · have h1 : decorate x =
          { x with
            togglerSiblings := x.togglerSiblings + 1,
            clickListeners := x.clickListeners + 1,
            changeListeners := x.changeListeners + 1,
            displayNone := true,
            toggleCheckboxAttr := true } := by
        unfold decorate
        rw [if_neg hx]
      rw [h1]
      show decorate _ = _
      unfold decorate
      rw [if_pos rfl]
  have hfresh : decorate cb =
      { cb with
        togglerSiblings := cb.togglerSiblings + 1,
        clickListeners := cb.clickListeners + 1,
        changeListeners := cb.changeListeners + 1,
        displayNone := true,
        toggleCheckboxAttr := true } := by
    unfold decorate
    rw [if_neg (by rw [hattr]; simp)]
  refine ⟨?_, ?_, ?_, hdec cb⟩
  · unfold toggleCheckbox
    rw [List.map_map]
    exact List.map_congr_left (fun a _ => hdec a)
  · rw [hfresh]
    show cb.togglerSiblings + 1 = 1
    rw [hsib]
  · rw [hfresh]
    show cb.clickListeners + 1 = 1
    rw [hclick]

/-- Claim C5 witness: the idempotence and single-decoration facts evaluated
on a concrete fresh checkbox. -/
theorem toggleCheckbox_idempotent_witness :
    toggleCheckbox (toggleCheckbox [freshCheckbox]) = toggleCheckbox [freshCheckbox] ∧
    (decorate freshCheckbox).togglerSiblings = 1 ∧
    (decorate freshCheckbox).clickListeners = 1 ∧
    decorate (decorate freshCheckbox) = decorate freshCheckbox :=
  toggleCheckbox_idempotent [freshCheckbox] freshCheckbox rfl rfl rfl

/-- Claim C6: when the location hash starts with `#antibanner` and no panel
with that id exists yet, `toggleTab` returns with the document and module
state completely unchanged and raises no error. -/
theorem toggleTab_antibanner_defer (s : TMState)
    (h1 : strBegins s.hash ANTIBANNER = true)
    (h2 : querySelectorPanel s s.hash = none) :
    toggleTab s = Except.ok s := by
  have hne : (s.hash == ("" : String)) = false := by
    cases hbe : s.hash == ("" : String)
    · rfl
    · have hempty : s.hash = "" := by simpa using hbe
      rw [hempty] at h1
      exact absurd h1 (by decide)
  have hht : hashTabId s = s.hash := by
    unfold hashTabId
    simp only [hne, Bool.false_eq_true, if_false]
  apply toggleTab_eq_defer
  rw [hht, h1, h2]
  rfl

/-- Claim C6 witness: the defer behaviour evaluated on a concrete document
whose hash is `#antibanner5` and which has no panels. -/
theorem toggleTab_antibanner_defer_witness :
    toggleTab deferState = Except.ok deferState :=
  toggleTab_antibanner_defer deferState (by decide) (by decide)

/-- Claim C7: for a single `toggleTab` invocation with a registered callback,
the callback fires exactly once when the resolved tab id is `#whitelist` and
not at all otherwise; and on hash `#whitelist` (panel rendered, previous tab
different) the whitelist panel's display becomes `block` while the previous
tab's panel becomes `none`. -/
theorem toggleTab_whitelist_behavior (s : TMState) (hcb : s.callbackSet = true) :
    (∀ s', toggleTab s = Except.ok s' →
      s'.callbackCalls = s.callbackCalls + (if resolvedTabId s = WHITELIST then 1 else 0)) ∧
    (∀ s' p, toggleTab s = Except.ok s' → s.hash = WHITELIST → s.prevTabId = some p →
      p ≠ WHITELIST → (querySelectorPanel s WHITELIST).isSome = true →
      (∃ w, querySelectorPanel s' WHITELIST = some w ∧ w.display = displayBlockStr) ∧
      (∃ q, querySelectorPanel s' p = some q ∧ q.display = displayNoneStr)) := by
  constructor
  · intro s' hrun
    exact toggleTab_ok_callbackCalls s s' hcb hrun
  · intro s' p hrun hhash hprev hpw hw
    exact toggleTab_whitelist_scenario s s' p hhash hprev hpw hw hrun

/-- Claim C7 witness: the callback and panel-visibility facts instantiated on
a concrete two-panel document switching from general settings to the
whitelist tab. -/
theorem toggleTab_whitelist_behavior_witness :
    (∀ s', toggleTab wlState = Except.ok s' →
      s'.callbackCalls = wlState.callbackCalls +
        (if resolvedTabId wlState = WHITELIST then 1 else 0)) ∧
    (∀ s' p, toggleTab wlState = Except.ok s' → wlState.hash = WHITELIST →
      wlState.prevTabId = some p → p ≠ WHITELIST →
      (querySelectorPanel wlState WHITELIST).isSome = true →
      (∃ w, querySelectorPanel s' WHITELIST = some w ∧ w.display = displayBlockStr) ∧
      (∃ q, querySelectorPanel s' p = some q ∧ q.display = displayNoneStr)) :=
  toggleTab_whitelist_behavior wlState rfl

/-- Claim C8: over every event sequence starting from the initial controller
state, at most one hide timer is pending (any pending timer is the stored
one), and each stats-reset trigger cancels the stored timer and schedules a
single fresh hide with the full 4000 ms delay from the trigger time, showing
the popup. -/
theorem statsReset_timer_discipline (evs : List StatsEv) (now : Nat) :
    StatsInv (runStats evs initialStats) ∧
    (_onStatsReset (runStats evs initialStats) now).pending =
      [((runStats evs initialStats).nextTimerId, now + 4000)] ∧
    (_onStatsReset (runStats evs initialStats) now).popupVisible = true := by
  have hinv : StatsInv (runStats evs initialStats) := statsInv_run evs initialStats statsInv_initial
  refine ⟨hinv, (onStatsReset_pending (runStats evs initialStats) now hinv).1, ?_⟩
  cases hc : (runStats evs initialStats).closePopupTimeoutId with
  | none => rw [onStatsReset_eq_none _ now hc]
  | some id => rw [onStatsReset_eq_some _ now id hc]

/-- Claim C9: the consistency of `filtersById` with `filters` — exactly one
entry per filter id occurring in the list, pointing at the last-written
record for that id, every entry backed by a record in the list — is
established by `initLoadedFilters` and preserved by `updateEnabled`. -/
theorem cache_consistency_preserved (c : Cache) (fs : List Filter) (cats : List Category)
    (f : Filter) (b : Option Bool) (hc : Consistent c) :
    Consistent (initLoadedFilters c fs cats) ∧ Consistent (updateEnabled c f b) :=
  ⟨consistent_init c fs cats, consistent_updateEnabled c f b hc⟩

/-- Claim C9 witness: the preservation facts instantiated on the empty cache
and a concrete filter. -/
theorem cache_consistency_preserved_witness :
    Consistent (initLoadedFilters initialCache [wlFilter] []) ∧
    Consistent (updateEnabled initialCache wlFilter (some true)) :=
  cache_consistency_preserved initialCache [wlFilter] [] wlFilter (some true) consistent_initial

/-- Claim C10: for both editors, a save sets the omit counter to 1, so
exactly the next update invocation is suppressed (counter back to 0, no
reload) while any update on a zero counter reloads once and keeps the counter
at 0; the counter never becomes negative over any event sequence. -/
theorem omitRenderEvents_spec :
    (∀ st : EditorBlock,
      (WhiteListFilter.updateWhiteListDomains (WhiteListFilter.saveWhiteListDomains st)).loads =
        st.loads ∧
      (WhiteListFilter.updateWhiteListDomains
        (WhiteListFilter.saveWhiteListDomains st)).omitRenderEventsCount = 0) ∧
    (∀ st : EditorBlock, st.omitRenderEventsCount = 0 →
      (WhiteListFilter.updateWhiteListDomains st).loads = st.loads + 1 ∧
      (WhiteListFilter.updateWhiteListDomains st).omitRenderEventsCount = 0) ∧
    (∀ evs : List EditorEv, 0 ≤ (runWhiteList evs initEditorBlock).omitRenderEventsCount) ∧
    (∀ st : EditorBlock,
      (UserFilter.updateUserFilterRules (UserFilter.saveUserRules st)).loads = st.loads ∧
      (UserFilter.updateUserFilterRules
        (UserFilter.saveUserRules st)).omitRenderEventsCount = 0) ∧
    (∀ st : EditorBlock, st.omitRenderEventsCount = 0 →
      (UserFilter.updateUserFilterRules st).loads = st.loads + 1 ∧
      (UserFilter.updateUserFilterRules st).omitRenderEventsCount = 0) ∧
    (∀ evs : List EditorEv, 0 ≤ (runUserFilter evs initEditorBlock).omitRenderEventsCount) := by
  refine ⟨?_, ?_, ?_, ?_, ?_, ?_⟩
  · intro st
    unfold WhiteListFilter.updateWhiteListDomains WhiteListFilter.saveWhiteListDomains
    rw [if_pos (by decide : ((1 : Int) > 0))]
    exact ⟨rfl, rfl⟩
  · intro st h0
    unfold WhiteListFilter.updateWhiteListDomains
    rw [if_neg (by rw [h0]; decide)]
    exact ⟨rfl, h0⟩
  · intro evs
    exact runWhiteList_nonneg evs initEditorBlock (le_refl 0)
  · intro st
    unfold UserFilter.updateUserFilterRules UserFilter.saveUserRules
    rw [if_pos (by decide : ((1 : Int) > 0))]
    exact ⟨rfl, rfl⟩
  · intro st h0
    unfold UserFilter.updateUserFilterRules
    rw [if_neg (by rw [h0]; decide)]
    exact ⟨rfl, h0⟩
  · intro evs
    exact runUserFilter_nonneg evs initEditorBlock (le_refl 0)

/-- Claim C10 witness: the suppression facts evaluated on the freshly
constructed editor state. -/
theorem omitRenderEvents_spec_witness :
    ((WhiteListFilter.updateWhiteListDomains
      (WhiteListFilter.saveWhiteListDomains initEditorBlock)).loads = initEditorBlock.loads ∧
     (WhiteListFilter.updateWhiteListDomains
      (WhiteListFilter.saveWhiteListDomains initEditorBlock)).omitRenderEventsCount = 0) ∧
    ((UserFilter.updateUserFilterRules initEditorBlock).loads = initEditorBlock.loads + 1 ∧
     (UserFilter.updateUserFilterRules initEditorBlock).omitRenderEventsCount = 0) :=
  ⟨omitRenderEvents_spec.1 initEditorBlock,
   omitRenderEvents_spec.2.2.2.2.1 initEditorBlock rfl⟩

end Options
